import Mathlib

/-!
Verification of the Topic Extraction & Report Synthesis Pipeline.

This file gives a shallow embedding, in Lean 4, of the core algorithms of the
news-column generator: dynamic topic-count selection, probability-thresholded
topic assignment and weighting, multilingual word counting, the content
synthesis retry loop, the news-filter response-parsing cascade, and the
per-topic orchestration with its batch-level failure isolation.  Machine
floats are modelled by exact rationals, external collaborators (the
generative backend, the JSON library, the clock) by explicit oracle
parameters, and raised exceptions by `Except`.
-/

namespace NewsColumn

/-! ## Topic count selection (`TopicModeler._adjust_num_topics`) -/

/-- The logarithmic growth term `int(math.log(article_count / 100, 2) * 3)` of
`_adjust_num_topics`.  The Python float logarithm is modelled by exact real
arithmetic: for `n ≥ 100` the value `⌊3·log2(n/100)⌋ = ⌊log2(n³/10⁶)⌋` equals
`Nat.log 2 (n ^ 3 / 1000000)`, because taking the floor of the argument of a
base-2 logarithm of a real number `≥ 1` does not change the floor of the
logarithm. -/
def log_growth (article_count : Nat) : Nat :=
  Nat.log 2 (article_count ^ 3 / 1000000)

/-- `TopicModeler._adjust_num_topics`: dynamically adjust the number of topics
based on the article count.  Defaults in the source are
`min_topics = 5`, `max_topics = 20`. -/
def adjust_num_topics (article_count : Nat) (min_topics : Nat) (max_topics : Nat) : Nat :=
  if article_count ≤ 100 then
    min_topics
  else if article_count ≤ 500 then
    min max_topics (min_topics + (article_count - 100) / 50)
  else
    min max_topics (min_topics + log_growth article_count)

theorem log_growth_is_floor_log2 (n : Nat) (hn : 100 ≤ n) :
    2 ^ log_growth n * 1000000 ≤ n ^ 3 ∧ n ^ 3 < 2 ^ (log_growth n + 1) * 1000000 := by
  have hq : n ^ 3 / 1000000 ≠ 0 := by
    have : 1000000 ≤ n ^ 3 := by
      calc 1000000 = 100 ^ 3 := by norm_num
        _ ≤ n ^ 3 := Nat.pow_le_pow_left hn 3
    exact Nat.ne_of_gt (Nat.div_pos this (by norm_num))
  constructor
  · have h1 : 2 ^ log_growth n ≤ n ^ 3 / 1000000 := Nat.pow_log_le_self 2 hq
    calc 2 ^ log_growth n * 1000000 ≤ n ^ 3 / 1000000 * 1000000 :=
          Nat.mul_le_mul_right _ h1
      _ ≤ n ^ 3 := Nat.div_mul_le_self _ _
  · have h2 : n ^ 3 / 1000000 < 2 ^ (log_growth n + 1) :=
      Nat.lt_pow_succ_log_self (by norm_num) _
    have h3 : n ^ 3 < (n ^ 3 / 1000000 + 1) * 1000000 := by
      have := Nat.div_add_mod (n ^ 3) 1000000
      have hm : n ^ 3 % 1000000 < 1000000 := Nat.mod_lt _ (by norm_num)
      omega
    calc n ^ 3 < (n ^ 3 / 1000000 + 1) * 1000000 := h3
      _ ≤ 2 ^ (log_growth n + 1) * 1000000 := Nat.mul_le_mul_right _ h2

theorem log_growth_mono {m n : Nat} (h : m ≤ n) : log_growth m ≤ log_growth n :=
  Nat.log_mono_right (Nat.div_le_div_right (Nat.pow_le_pow_left h 3))

/-- **C2.** For every article count `n` and configured bounds with
`min_k ≤ max_k`, the dynamically chosen topic count `k` satisfies
`min_k ≤ k ≤ max_k`, equals `min_k` when `n ≤ 100`, equals
`min(max_k, min_k + (n-100)/50)` when `100 < n ≤ 500`, equals
`min(max_k, min_k + ⌊3·log2(n/100)⌋)` when `n > 500` (the floor term
characterised exactly by `log_growth_is_floor_log2`), and is monotonically
non-decreasing in `n` within each of the three growth regimes. -/
theorem adjust_num_topics_spec (min_k max_k : Nat) (hk : min_k ≤ max_k) (n : Nat) :
    (min_k ≤ adjust_num_topics n min_k max_k ∧ adjust_num_topics n min_k max_k ≤ max_k)
    ∧ (n ≤ 100 → adjust_num_topics n min_k max_k = min_k)
    ∧ (100 < n → n ≤ 500 →
        adjust_num_topics n min_k max_k = min max_k (min_k + (n - 100) / 50))
    ∧ (500 < n →
        adjust_num_topics n min_k max_k = min max_k (min_k + log_growth n))
    ∧ (∀ m, n ≤ m →
        (m ≤ 100 ∨ (100 < n ∧ m ≤ 500) ∨ 500 < n) →
        adjust_num_topics n min_k max_k ≤ adjust_num_topics m min_k max_k) := by
  refine ⟨⟨?_, ?_⟩, ?_, ?_, ?_, ?_⟩
  · unfold adjust_num_topics
    split
    · exact le_refl _
    · split
      · exact le_min hk (Nat.le_add_right _ _)
      · exact le_min hk (Nat.le_add_right _ _)
  · unfold adjust_num_topics
    split
    · exact hk
    · split
      · exact min_le_left _ _
      · exact min_le_left _ _
  · intro h
    simp [adjust_num_topics, h]
  · intro h1 h2
    simp [adjust_num_topics, Nat.not_le.mpr h1, h2]
  · intro h
    have h1 : ¬ n ≤ 100 := by omega
    have h2 : ¬ n ≤ 500 := by omega
    simp [adjust_num_topics, h1, h2]
  · intro m hnm hreg
    rcases hreg with hm | ⟨hn, hm⟩ | hn
    · -- both in the first regime
      have : n ≤ 100 := le_trans hnm hm
      simp [adjust_num_topics, this, hm]
    · -- both in the linear regime
      have hn2 : ¬ n ≤ 100 := by omega
      have hn5 : n ≤ 500 := le_trans hnm hm
      have hm2 : ¬ m ≤ 100 := by omega
      simp only [adjust_num_topics, if_neg hn2, if_pos hn5, if_neg hm2, if_pos hm]
      exact min_le_min (le_refl _)
        (Nat.add_le_add_left (Nat.div_le_div_right (Nat.sub_le_sub_right hnm 100)) _)
    · -- both in the logarithmic regime
      have hn1 : ¬ n ≤ 100 := by omega
      have hn5 : ¬ n ≤ 500 := by omega
      have hm1 : ¬ m ≤ 100 := by omega
      have hm5 : ¬ m ≤ 500 := by omega
      simp only [adjust_num_topics, if_neg hn1, if_neg hn5, if_neg hm1, if_neg hm5]
      exact min_le_min (le_refl _) (Nat.add_le_add_left (log_growth_mono hnm) _)

/-- Witness for C2: at `min_k = 5`, `max_k = 20`, `n = 120` the chosen count
lies in the configured bounds (and indeed `(120-100)/50 = 0` so it is `5`). -/
theorem adjust_num_topics_spec_witness :
    5 ≤ 20 ∧ (5 ≤ adjust_num_topics 120 5 20 ∧ adjust_num_topics 120 5 20 ≤ 20) :=
  ⟨by decide, (adjust_num_topics_spec 5 20 (by decide) 120).1⟩

/-! ## Multilingual word counting (`ReportValidator._count_words_multilingual`) -/

/-- Python `str.isspace()` restricted to the ASCII whitespace characters
(space, tab, newline, carriage return, vertical tab, form feed); the claims
only involve ASCII and CJK text, where this coincides with Python. -/
def is_space (c : Char) : Bool :=
  c.toNat ∈ [0x20, 0x9, 0xa, 0xb, 0xc, 0xd]

/-- `ReportValidator._is_chinese_char`: CJK Unified Ideographs and
Extension A ranges. -/
def is_chinese_char (c : Char) : Bool :=
  (0x4e00 ≤ c.toNat && c.toNat ≤ 0x9fff) || (0x3400 ≤ c.toNat && c.toNat ≤ 0x4dbf)

/-- The code points of the literal `punctuation_chars` string in
`ReportValidator._is_punctuation` (duplicates kept as in the source). -/
def punctuation_chars : List Nat :=
  [0xff0c, 0x3002, 0xff1f, 0xff01, 0x3001, 0xff1b, 0xff1a, 0x22, 0x22, 0x27,
   0x27, 0xff08, 0xff09, 0x3010, 0x3011, 0x300a, 0x300b, 0x3008, 0x3009,
   0x300e, 0x300f, 0x300c, 0x300d, 0xfe41, 0xfe42, 0x2026, 0x2014, 0xff0d,
   0xff5e, 0xb7, 0x2e, 0x2c, 0x3a, 0x3b, 0x21, 0x3f, 0x5b, 0x5d, 0x28, 0x29,
   0x7b, 0x7d, 0x22, 0x27, 0x2b, 0x2d, 0x2a, 0x2f, 0x3d, 0x5f]

/-- `ReportValidator._is_punctuation`: membership in the punctuation string or
`char.isspace()`. -/
def is_punctuation (c : Char) : Bool :=
  c.toNat ∈ punctuation_chars || is_space c

/-- Python `str.strip()`: drop whitespace from both ends. -/
def strip (l : List Char) : List Char :=
  ((l.dropWhile is_space).reverse.dropWhile is_space).reverse

/-- Counts maximal runs of non-delimiter characters; the boolean argument
records whether the scan is currently inside a word. -/
def count_words_aux (delim : Char → Bool) : List Char → Bool → Nat
  | [], _ => 0
  | c :: cs, inWord =>
    if delim c then count_words_aux delim cs false
    else (if inWord then 0 else 1) + count_words_aux delim cs true

/-- Number of words of `l` when split at characters satisfying `delim`
(Python `text.split()` with `delim = is_space` returns this many words). -/
def count_split_words (delim : Char → Bool) (l : List Char) : Nat :=
  count_words_aux delim l false

/-- `ReportValidator._count_words_multilingual`, translated line by line.
The float threshold `len(text) * 0.3` is modelled by the exact rational
`3/10`, i.e. the test `chinese_char_count > len(text) * 0.3` becomes
`10 * chinese_char_count > 3 * len(text)`. -/
def count_words_multilingual (text : List Char) : Nat :=
  if text.isEmpty then 0
  else
    let t := strip text
    let chinese_char_count := (t.filter is_chinese_char).length
    if 10 * chinese_char_count > 3 * t.length then
      let non_chinese_text := t.map (fun c =>
        if is_chinese_char c || is_space c || is_punctuation c then ' ' else c)
      chinese_char_count + count_split_words is_space non_chinese_text
    else
      count_split_words is_space t

/-- The counting rule as the spec states it: if CJK characters exceed 30% of
the total character count, the count is the CJK character count plus the
number of whitespace-delimited non-CJK, non-punctuation words remaining
(CJK and punctuation characters acting as word breaks); otherwise it is the
whitespace-delimited word count. -/
def claimed_word_count (text : List Char) : Nat :=
  let t := strip text
  let cjk := (t.filter is_chinese_char).length
  if 10 * cjk > 3 * t.length then
    cjk + count_split_words (fun c => is_chinese_char c || is_space c || is_punctuation c) t
  else
    count_split_words is_space t

/-- A string of `n` whitespace-separated single-character ASCII tokens. -/
def single_char_tokens : Nat → List Char
  | 0 => []
  | 1 => ['a']
  | n + 2 => 'a' :: ' ' :: single_char_tokens (n + 1)

theorem count_words_aux_map (p q : Char → Bool) (f : Char → Char)
    (h : ∀ c, q (f c) = p c) :
    ∀ (l : List Char) (b : Bool),
      count_words_aux q (l.map f) b = count_words_aux p l b := by
  intro l
  induction l with
  | nil => intro b; rfl
  | cons c cs ih =>
    intro b
    simp only [List.map_cons, count_words_aux, h c]
    by_cases hc : p c = true
    · simp [hc, ih]
    · simp only [Bool.not_eq_true] at hc
      simp [hc, ih]

theorem space_after_blanking (c : Char) :
    is_space (if is_chinese_char c || is_space c || is_punctuation c then ' ' else c)
      = (is_chinese_char c || is_space c || is_punctuation c) := by
  cases hc : (is_chinese_char c || is_space c || is_punctuation c) with
  | true =>
    have hsp : is_space ' ' = true := by decide
    simp [hc, hsp]
  | false =>
    have h := Bool.or_eq_false_iff.mp hc
    have h12 := Bool.or_eq_false_iff.mp h.1
    simp [hc, h12.2]

set_option maxRecDepth 40000 in
/-- **C9.** For every non-empty string, the multilingual word count equals the
spec's counting rule; in particular a 600-character CJK string with no spaces
counts as 600, and 600 whitespace-separated single-character ASCII tokens
count as 600. -/
theorem count_words_multilingual_spec :
    (∀ text : List Char, text ≠ [] →
      count_words_multilingual text = claimed_word_count text)
    ∧ count_words_multilingual (List.replicate 600 '哈') = 600
    ∧ count_words_multilingual (single_char_tokens 600) = 600 := by
  refine ⟨?_, by decide, by decide⟩
  intro text hne
  unfold count_words_multilingual claimed_word_count
  rw [if_neg (by simpa [List.isEmpty_iff] using hne)]
  simp only []
  by_cases hdom :
      10 * (List.filter is_chinese_char (strip text)).length > 3 * (strip text).length
  · rw [if_pos hdom, if_pos hdom]
    congr 1
    exact count_words_aux_map
      (fun c => is_chinese_char c || is_space c || is_punctuation c) is_space
      (fun c => if is_chinese_char c || is_space c || is_punctuation c then ' ' else c)
      space_after_blanking (strip text) false
  · rw [if_neg hdom, if_neg hdom]

/-- Witness for C9: the general counting-rule equality evaluated at a concrete
one-character string. -/
theorem count_words_multilingual_spec_witness :
    count_words_multilingual ['a'] = claimed_word_count ['a'] :=
  count_words_multilingual_spec.1 ['a'] (by decide)

/-! ## Topic assignment and weighting (`TopicModeler`)

Probabilities and source weights are exact rationals (`ℚ`); the float
thresholds `0.3` and `0.1` of the source become `3/10` and `1/10`.  The
gensim LDA model and the language-specific tokenizers are external
collaborators: an article is modelled together with its preprocessed token
list and its topic distribution `lda_model.get_document_topics(bow)`. -/

/-- An article as seen by `TopicModeler._update_topic_counts`:
`tokens` models `self.preprocess(summary)` and `doc_topics` models
`lda_model.get_document_topics(dictionary.doc2bow(tokens))`. -/
structure ModelArticle where
  id : List Char
  source : List Char
  tokens : List (List Char)
  doc_topics : List (Nat × ℚ)

/-- The four instance counters of `TopicModeler`, as functions from key to
accumulated value (a `collections.Counter` defaults to zero). -/
structure Counters where
  topic_counter : Nat → Nat
  weighted_topic_counter : Nat → ℚ
  keyword_counter : List Char → Nat
  weighted_keyword_counter : List Char → ℚ

def init_counters : Counters :=
  { topic_counter := fun _ => 0
    weighted_topic_counter := fun _ => 0
    keyword_counter := fun _ => 0
    weighted_keyword_counter := fun _ => 0 }

/-- `self.weighted_sources.get(source, 1.0)`. -/
def source_weight (ws : List Char → Option ℚ) (source : List Char) : ℚ :=
  (ws source).getD 1

/-- Body of the loop `for topic_id, prob in article_topics` in
`_update_topic_counts`: contributions only when `prob >= 0.1`, the weighted
topic counter gaining `weight * prob`. -/
def topic_pair_step (weight : ℚ) (acc : Counters) (tp : Nat × ℚ) : Counters :=
  if (1 : ℚ)/10 ≤ tp.2 then
    { acc with
      topic_counter :=
        Function.update acc.topic_counter tp.1 (acc.topic_counter tp.1 + 1)
      weighted_topic_counter :=
        Function.update acc.weighted_topic_counter tp.1
          (acc.weighted_topic_counter tp.1 + weight * tp.2) }
  else acc

/-- Body of the loop `for token in tokens` in `_update_topic_counts`: every
token contributes unconditionally, the weighted keyword counter gaining
`weight`. -/
def keyword_token_step (weight : ℚ) (acc : Counters) (tok : List Char) : Counters :=
  { acc with
    keyword_counter :=
      Function.update acc.keyword_counter tok (acc.keyword_counter tok + 1)
    weighted_keyword_counter :=
      Function.update acc.weighted_keyword_counter tok
        (acc.weighted_keyword_counter tok + weight) }

/-- One iteration of the article loop of `_update_topic_counts` (an article
whose summary preprocesses to no tokens is skipped by `continue`). -/
def update_counts_article (ws : List Char → Option ℚ) (c : Counters)
    (a : ModelArticle) : Counters :=
  if a.tokens = [] then c
  else
    let weight := source_weight ws a.source
    a.tokens.foldl (keyword_token_step weight)
      (a.doc_topics.foldl (topic_pair_step weight) c)

/-- `TopicModeler._update_topic_counts`: counters are cleared, then every
article is processed in order. -/
def update_topic_counts (ws : List Char → Option ℚ)
    (news : List ModelArticle) : Counters :=
  news.foldl (update_counts_article ws) init_counters

/-- The pairs of a document's topic distribution that pass the `prob >= 0.1`
weighting threshold for topic `t`. -/
def weight_qualifying (t : Nat) (dts : List (Nat × ℚ)) : List (Nat × ℚ) :=
  dts.filter (fun tp => tp.1 == t && decide ((1 : ℚ)/10 ≤ tp.2))

/-- The pairs of a document's topic distribution that pass the `prob >= 0.3`
membership threshold for topic `t` (loop over `doc_topics` in
`perform_topic_modeling`). -/
def member_qualifying (t : Nat) (dts : List (Nat × ℚ)) : List (Nat × ℚ) :=
  dts.filter (fun tp => tp.1 == t && decide ((3 : ℚ)/10 ≤ tp.2))

/-- `perform_topic_modeling`: the `article_ids` collected for topic `t`, one
entry per `(t_id, prob)` pair with `t_id = t` and `prob >= 0.3`, where `docs`
pairs each document's recorded article id with its topic distribution
`lda_model[corpus][idx]`. -/
def topic_article_ids (t : Nat) (docs : List (List Char × List (Nat × ℚ))) :
    List (List Char) :=
  docs.flatMap (fun d => (member_qualifying t d.2).map (fun _ => d.1))

theorem topic_pair_fold_spec (weight : ℚ) (t : Nat) (dts : List (Nat × ℚ)) :
    ∀ c : Counters,
      ((dts.foldl (topic_pair_step weight) c).topic_counter t =
          c.topic_counter t + (weight_qualifying t dts).length)
      ∧ ((dts.foldl (topic_pair_step weight) c).weighted_topic_counter t =
          c.weighted_topic_counter t + weight * ((weight_qualifying t dts).map Prod.snd).sum)
      ∧ ((dts.foldl (topic_pair_step weight) c).keyword_counter =
          c.keyword_counter)
      ∧ ((dts.foldl (topic_pair_step weight) c).weighted_keyword_counter =
          c.weighted_keyword_counter) := by
  induction dts with
  | nil => intro c; simp [weight_qualifying]
  | cons tp dts ih =>
    intro c
    obtain ⟨ih1, ih2, ih3, ih4⟩ := ih (topic_pair_step weight c tp)
    simp only [List.foldl_cons]
    by_cases hq : (1 : ℚ)/10 ≤ tp.2
    · have hstep : topic_pair_step weight c tp =
        { c with
          topic_counter :=
            Function.update c.topic_counter tp.1 (c.topic_counter tp.1 + 1)
          weighted_topic_counter :=
            Function.update c.weighted_topic_counter tp.1
              (c.weighted_topic_counter tp.1 + weight * tp.2) } := by
        unfold topic_pair_step
        rw [if_pos hq]
      by_cases ht : tp.1 = t
      · subst ht
        have hfil : weight_qualifying tp.1 (tp :: dts) =
            tp :: weight_qualifying tp.1 dts := by
          simp only [weight_qualifying, List.filter_cons, beq_self_eq_true,
            Bool.true_and, decide_eq_true hq, if_pos]
        refine ⟨?_, ?_, ?_, ?_⟩
        · rw [ih1, hstep, hfil]
          simp only [Function.update_same, List.length_cons]
          omega
        · rw [ih2, hstep, hfil]
          simp only [Function.update_same, List.map_cons, List.sum_cons]
          ring
        · rw [ih3, hstep]
        · rw [ih4, hstep]
      · have hfil : weight_qualifying t (tp :: dts) = weight_qualifying t dts := by
          simp [weight_qualifying, List.filter_cons, ht]
        refine ⟨?_, ?_, ?_, ?_⟩
        · rw [ih1, hstep, hfil]
          simp only [Function.update_noteq (Ne.symm ht)]
        · rw [ih2, hstep, hfil]
          simp only [Function.update_noteq (Ne.symm ht)]
        · rw [ih3, hstep]
        · rw [ih4, hstep]
    · have hstep : topic_pair_step weight c tp = c := by
        unfold topic_pair_step
        rw [if_neg hq]
      have hfil : weight_qualifying t (tp :: dts) = weight_qualifying t dts := by
        have hd : (tp.1 == t && decide ((1 : ℚ)/10 ≤ tp.2)) = false := by
          rw [decide_eq_false hq, Bool.and_false]
        simp only [weight_qualifying, List.filter_cons, hd, Bool.false_eq_true,
          if_false]
      refine ⟨?_, ?_, ?_, ?_⟩
      · rw [ih1, hstep, hfil]
      · rw [ih2, hstep, hfil]
      · rw [ih3, hstep]
      · rw [ih4, hstep]

theorem keyword_token_fold_spec (weight : ℚ) (k : List Char)
    (toks : List (List Char)) :
    ∀ c : Counters,
      ((toks.foldl (keyword_token_step weight) c).keyword_counter k =
          c.keyword_counter k + toks.count k)
      ∧ ((toks.foldl (keyword_token_step weight) c).weighted_keyword_counter k =
          c.weighted_keyword_counter k + weight * (toks.count k : ℚ))
      ∧ ((toks.foldl (keyword_token_step weight) c).topic_counter =
          c.topic_counter)
      ∧ ((toks.foldl (keyword_token_step weight) c).weighted_topic_counter =
          c.weighted_topic_counter) := by
  induction toks with
  | nil => intro c; simp
  | cons tok toks ih =>
    intro c
    obtain ⟨ih1, ih2, ih3, ih4⟩ := ih (keyword_token_step weight c tok)
    simp only [List.foldl_cons]
    by_cases hk : tok = k
    · subst hk
      have hcnt : (tok :: toks).count tok = toks.count tok + 1 := by
        simp [List.count_cons]
      refine ⟨?_, ?_, ?_, ?_⟩
      · rw [ih1, hcnt]
        simp only [keyword_token_step, Function.update_same]
        omega
      · rw [ih2, hcnt]
        simp only [keyword_token_step, Function.update_same]
        push_cast
        ring
      · rw [ih3]; rfl
      · rw [ih4]; rfl
    · have hcnt : (tok :: toks).count k = toks.count k := by
        simp [List.count_cons, hk]
      refine ⟨?_, ?_, ?_, ?_⟩
      · rw [ih1, hcnt]
        simp only [keyword_token_step, Function.update_noteq (Ne.symm hk)]
      · rw [ih2, hcnt]
        simp only [keyword_token_step, Function.update_noteq (Ne.symm hk)]
      · rw [ih3]; rfl
      · rw [ih4]; rfl

/-- Per-article contribution to the plain topic counter. -/
def article_topic_contrib (t : Nat) (a : ModelArticle) : Nat :=
  if a.tokens = [] then 0 else (weight_qualifying t a.doc_topics).length

/-- Per-article contribution to the weighted topic counter:
`weight * prob` summed over qualifying pairs. -/
def article_weighted_topic_contrib (ws : List Char → Option ℚ) (t : Nat)
    (a : ModelArticle) : ℚ :=
  if a.tokens = [] then 0
  else source_weight ws a.source * ((weight_qualifying t a.doc_topics).map Prod.snd).sum

/-- Per-article contribution to the plain keyword counter. -/
def article_keyword_contrib (k : List Char) (a : ModelArticle) : Nat :=
  if a.tokens = [] then 0 else a.tokens.count k

/-- Per-article contribution to the weighted keyword counter: one `weight`
per occurrence of the token, with no probability condition. -/
def article_weighted_keyword_contrib (ws : List Char → Option ℚ) (k : List Char)
    (a : ModelArticle) : ℚ :=
  if a.tokens = [] then 0
  else source_weight ws a.source * (a.tokens.count k : ℚ)

theorem update_counts_article_spec (ws : List Char → Option ℚ)
    (a : ModelArticle) (c : Counters) (t : Nat) (k : List Char) :
    ((update_counts_article ws c a).topic_counter t =
        c.topic_counter t + article_topic_contrib t a)
    ∧ ((update_counts_article ws c a).weighted_topic_counter t =
        c.weighted_topic_counter t + article_weighted_topic_contrib ws t a)
    ∧ ((update_counts_article ws c a).keyword_counter k =
        c.keyword_counter k + article_keyword_contrib k a)
    ∧ ((update_counts_article ws c a).weighted_keyword_counter k =
        c.weighted_keyword_counter k + article_weighted_keyword_contrib ws k a) := by
  unfold update_counts_article article_topic_contrib article_weighted_topic_contrib
    article_keyword_contrib article_weighted_keyword_contrib
  by_cases he : a.tokens = []
  · simp [he]
  · simp only [if_neg he]
    obtain ⟨k1, k2, k3, k4⟩ :=
      keyword_token_fold_spec (source_weight ws a.source) k a.tokens
        (a.doc_topics.foldl (topic_pair_step (source_weight ws a.source)) c)
    obtain ⟨p1, p2, p3, p4⟩ :=
      topic_pair_fold_spec (source_weight ws a.source) t a.doc_topics c
    refine ⟨?_, ?_, ?_, ?_⟩
    · rw [k3, p1]
    · rw [k4, p2]
    · rw [k1, p3]
    · rw [k2, p4]

theorem update_topic_counts_fold (ws : List Char → Option ℚ)
    (news : List ModelArticle) (t : Nat) (k : List Char) :
    ∀ c : Counters,
      ((news.foldl (update_counts_article ws) c).topic_counter t =
          c.topic_counter t + (news.map (article_topic_contrib t)).sum)
      ∧ ((news.foldl (update_counts_article ws) c).weighted_topic_counter t =
          c.weighted_topic_counter t + (news.map (article_weighted_topic_contrib ws t)).sum)
      ∧ ((news.foldl (update_counts_article ws) c).keyword_counter k =
          c.keyword_counter k + (news.map (article_keyword_contrib k)).sum)
      ∧ ((news.foldl (update_counts_article ws) c).weighted_keyword_counter k =
          c.weighted_keyword_counter k + (news.map (article_weighted_keyword_contrib ws k)).sum) := by
  induction news with
  | nil => intro c; simp
  | cons a news ih =>
    intro c
    obtain ⟨ih1, ih2, ih3, ih4⟩ := ih (update_counts_article ws c a)
    obtain ⟨a1, a2, a3, a4⟩ := update_counts_article_spec ws a c t k
    simp only [List.foldl_cons, List.map_cons, List.sum_cons]
    exact ⟨by rw [ih1, a1]; ring, by rw [ih2, a2]; ring,
      by rw [ih3, a3]; ring, by rw [ih4, a4]; ring⟩

theorem topic_article_ids_mem (t : Nat)
    (docs : List (List Char × List (Nat × ℚ))) (aid : List Char) :
    aid ∈ topic_article_ids t docs ↔
      ∃ dts, (aid, dts) ∈ docs ∧ ∃ tp ∈ dts, tp.1 = t ∧ (3 : ℚ)/10 ≤ tp.2 := by
  constructor
  · intro h
    rw [topic_article_ids, List.mem_flatMap] at h
    obtain ⟨d, hd, hin⟩ := h
    rw [List.mem_map] at hin
    obtain ⟨tp, htp, heq⟩ := hin
    rw [member_qualifying, List.mem_filter, Bool.and_eq_true, beq_iff_eq,
      decide_eq_true_eq] at htp
    have hda : (aid, d.2) = d := by rw [← heq]
    exact ⟨d.2, hda ▸ hd, tp, htp.1, htp.2.1, htp.2.2⟩
  · rintro ⟨dts, hmem, tp, htp, ht, hp⟩
    rw [topic_article_ids, List.mem_flatMap]
    refine ⟨(aid, dts), hmem, ?_⟩
    rw [List.mem_map]
    refine ⟨tp, ?_, rfl⟩
    rw [member_qualifying, List.mem_filter, Bool.and_eq_true, beq_iff_eq,
      decide_eq_true_eq]
    exact ⟨htp, ht, hp⟩

/-- The article used to refute the keyword-threshold part of C3: its only
(topic, probability) pair is below the 0.10 weighting threshold. -/
def c3_article : ModelArticle :=
  { id := ['x'], source := ['s'], tokens := [['f', 'o', 'o']],
    doc_topics := [(0, 1/20)] }

/-- **C3 counterexample.** The claim states that keyword weighting
contributions are counted whenever probability ≥ 0.10 — i.e. only then.  In
the code the keyword counters are updated unconditionally for every token:
for an article whose only topic probability is 1/20 < 1/10, the topic
counters stay at 0 but its token still receives keyword count 1 and keyword
weight 1. -/
theorem keyword_weight_not_probability_gated :
    c3_article.doc_topics = [(0, 1/20)]
    ∧ (1 : ℚ)/20 < 1/10
    ∧ (update_topic_counts (fun _ => none) [c3_article]).weighted_keyword_counter
        ['f', 'o', 'o'] = 1
    ∧ (update_topic_counts (fun _ => none) [c3_article]).keyword_counter
        ['f', 'o', 'o'] = 1
    ∧ (update_topic_counts (fun _ => none) [c3_article]).weighted_topic_counter 0 = 0
    ∧ (update_topic_counts (fun _ => none) [c3_article]).topic_counter 0 = 0 := by
  refine ⟨rfl, by norm_num, ?_, ?_, ?_, ?_⟩ <;>
    simp [update_topic_counts, update_counts_article, c3_article,
      keyword_token_step, topic_pair_step, init_counters, source_weight] <;>
    norm_num

/-- **C3 (amended).** Membership behaves as claimed: an article id is
collected into a topic's `article_ids` (one entry per qualifying pair, the
same pairs producing the `{topic_id, probability, keywords}` records) exactly
when the model assigns that (article, topic) pair probability ≥ 0.30.
Weighting differs from the claim: topic contributions are counted exactly
when probability ≥ 0.10 and the weighted topic counter gains
`weight × probability` (not the bare weight), while keyword contributions are
counted once per token occurrence with **no** probability condition, the
weighted keyword counter gaining the per-source weight (default 1). -/
theorem probability_thresholds_spec (t : Nat) (k : List Char)
    (ws : List Char → Option ℚ) (docs : List (List Char × List (Nat × ℚ)))
    (news : List ModelArticle) (aid : List Char) :
    (aid ∈ topic_article_ids t docs ↔
      ∃ dts, (aid, dts) ∈ docs ∧ ∃ tp ∈ dts, tp.1 = t ∧ (3 : ℚ)/10 ≤ tp.2)
    ∧ (update_topic_counts ws news).topic_counter t
        = (news.map (article_topic_contrib t)).sum
    ∧ (update_topic_counts ws news).weighted_topic_counter t
        = (news.map (article_weighted_topic_contrib ws t)).sum
    ∧ (update_topic_counts ws news).keyword_counter k
        = (news.map (article_keyword_contrib k)).sum
    ∧ (update_topic_counts ws news).weighted_keyword_counter k
        = (news.map (article_weighted_keyword_contrib ws k)).sum := by
  obtain ⟨h1, h2, h3, h4⟩ := update_topic_counts_fold ws news t k init_counters
  refine ⟨topic_article_ids_mem t docs aid, ?_, ?_, ?_, ?_⟩
  · rw [update_topic_counts, h1]; simp [init_counters]
  · rw [update_topic_counts, h2]; simp [init_counters]
  · rw [update_topic_counts, h3]; simp [init_counters]
  · rw [update_topic_counts, h4]; simp [init_counters]

/-! ## Refiltered topic counts (`BaseReportGenerator.process_topic`, C10) -/

/-- A news article as seen by the orchestrator and the news filter
(the `NewsArticle` fields these stages read).  The publication timestamp is
modelled on a totally ordered scale. -/
structure NewsArt where
  id : List Char
  title : List Char
  url : List Char
  source : List Char
  published_at : Nat

/-- `models.topics.Topic`, restricted to the fields the pipeline reads. -/
structure Topic where
  topic_id : Nat
  content : List Char
  count : Nat
  weighted_count : ℚ
  keywords : List (List Char)
  article_ids : List (List Char)

/-- `process_topic` lines 147–153: the recomputed `weighted_count` is the
plain sum over the filtered articles of `self.weighted_sources.get(source,
1.0)` — no probability factor. -/
def refined_weighted_count (ws : List Char → Option ℚ)
    (filtered : List NewsArt) : ℚ :=
  (filtered.map (fun n => source_weight ws n.source)).sum

/-- `process_topic` lines 139–153: overwrite the topic's `article_ids`,
`count` and `weighted_count` from the filtered article set. -/
def refine_topic (ws : List Char → Option ℚ) (t : Topic)
    (filtered : List NewsArt) : Topic :=
  { t with
    article_ids := filtered.map (fun n => n.id)
    count := filtered.length
    weighted_count := refined_weighted_count ws filtered }

/-- The single-article situation contrasting the two weighting formulas:
topic probability 1/2, default source weight. -/
def c10_article : ModelArticle :=
  { id := ['y'], source := ['s'], tokens := [['w']], doc_topics := [(0, 1/2)] }

/-- Its orchestration-stage counterpart. -/
def c10_news : NewsArt :=
  { id := ['y'], title := [], url := [], source := ['s'], published_at := 0 }

theorem sum_map_one (l : List NewsArt) :
    (l.map (fun _ => (1 : ℚ))).sum = (l.length : ℚ) := by
  induction l with
  | nil => simp
  | cons a l ih => simp [ih]; ring

/-- **C10.** The refiltered `weighted_count` is the plain sum of per-source
weights (default 1.0) over the filtered articles; in a region with no
weighted sources configured it equals `count` (the number of filtered
articles) exactly.  The last two conjuncts exhibit the difference from the
modeling stage's `weight × probability` accumulation on the same one-article
input: 1/2 there versus 1 here. -/
theorem refined_weighted_count_spec :
    (∀ (ws : List Char → Option ℚ) (t : Topic) (filtered : List NewsArt),
        (refine_topic ws t filtered).weighted_count
          = (filtered.map (fun n => source_weight ws n.source)).sum
        ∧ (refine_topic ws t filtered).count = filtered.length)
    ∧ (∀ (t : Topic) (filtered : List NewsArt),
        (refine_topic (fun _ => none) t filtered).weighted_count
          = ((refine_topic (fun _ => none) t filtered).count : ℚ))
    ∧ (update_topic_counts (fun _ => none) [c10_article]).weighted_topic_counter 0
        = 1/2
    ∧ refined_weighted_count (fun _ => none) [c10_news] = 1 := by
  refine ⟨fun ws t filtered => ⟨rfl, rfl⟩, ?_, ?_, ?_⟩
  · intro t filtered
    show refined_weighted_count _ filtered = (filtered.length : ℚ)
    unfold refined_weighted_count
    have : (filtered.map (fun n => source_weight (fun _ => none) n.source))
        = filtered.map (fun _ => (1 : ℚ)) := by
      simp [source_weight]
    rw [this, sum_map_one]
  · simp [update_topic_counts, update_counts_article, c10_article,
      keyword_token_step, topic_pair_step, init_counters, source_weight]
    norm_num
  · simp [refined_weighted_count, c10_news, source_weight]

/-! ## Content synthesis (`ContentAnalyzer.generate_report_content`)

The backend call and the (total) extraction are fused into one oracle per
attempt: `.error` models a raised backend error, `.ok` the extracted
`{'title', 'content'}` dictionary. -/

/-- The `{'title': ..., 'content': ...}` dictionary produced by
`ReportValidator.extract_title_content`. -/
structure ReportContent where
  title : List Char
  content : List Char

/-- `ReportValidator.validate_report_format` on an extracted pair: both
title and content non-empty (the dictionary always carries both keys). -/
def validate_report_format (rc : ReportContent) : Bool :=
  !rc.title.isEmpty && !rc.content.isEmpty

/-- `ReportValidator.validate_word_count`: word count within
`[min_words, max_words]`, also returning the count. -/
def validate_word_count (content : List Char) (min_words max_words : Nat) :
    Bool × Nat :=
  let wc := count_words_multilingual content
  (decide (min_words ≤ wc) && decide (wc ≤ max_words), wc)

/-- The `for attempt in range(3)` loop of `generate_report_content`:
`idx` is the next attempt index and `remaining` the attempts left (3 at
entry).  A format failure or a non-final word-count failure continues; a
word-count failure on the final attempt returns the result anyway; an
exception on the final attempt propagates; falling out of the loop raises. -/
def generation_attempts (attempts : Nat → Except Unit ReportContent) :
    Nat → Nat → Except Unit ReportContent
  | _, 0 => .error ()
  | idx, r + 1 =>
    match attempts idx with
    | .error e =>
      if r = 0 then .error e else generation_attempts attempts (idx + 1) r
    | .ok result =>
      if validate_report_format result then
        if (validate_word_count result.content 500 2000).1 then .ok result
        else if r = 0 then .ok result
        else generation_attempts attempts (idx + 1) r
      else generation_attempts attempts (idx + 1) r

/-- `ContentAnalyzer.generate_report_content` (the per-attempt oracle already
contains the prompt construction, backend call and extraction). -/
def generate_report_content (attempts : Nat → Except Unit ReportContent) :
    Except Unit ReportContent :=
  generation_attempts attempts 0 3

/-- An attempt outcome the loop moves past when retries remain: a raised
backend error, a structurally invalid extraction, or an out-of-range word
count. -/
def attempt_fails (a : Except Unit ReportContent) : Prop :=
  match a with
  | .error _ => True
  | .ok r => validate_report_format r = false
      ∨ (validate_report_format r = true
          ∧ (validate_word_count r.content 500 2000).1 = false)

theorem generation_attempts_error (attempts : Nat → Except Unit ReportContent)
    (idx r : Nat) (e : Unit) (h : attempts idx = .error e) :
    generation_attempts attempts idx (r + 1)
      = if r = 0 then .error e else generation_attempts attempts (idx + 1) r := by
  conv_lhs => unfold generation_attempts
  rw [h]

theorem generation_attempts_ok (attempts : Nat → Except Unit ReportContent)
    (idx r : Nat) (res : ReportContent) (h : attempts idx = .ok res) :
    generation_attempts attempts idx (r + 1)
      = if validate_report_format res then
          if (validate_word_count res.content 500 2000).1 then .ok res
          else if r = 0 then .ok res
          else generation_attempts attempts (idx + 1) r
        else generation_attempts attempts (idx + 1) r := by
  conv_lhs => unfold generation_attempts
  rw [h]

theorem generation_attempts_congr (a b : Nat → Except Unit ReportContent) :
    ∀ (r idx : Nat), (∀ j, j < r → a (idx + j) = b (idx + j)) →
      generation_attempts a idx r = generation_attempts b idx r := by
  intro r
  induction r with
  | zero => intro idx _; rfl
  | succ r ih =>
    intro idx h
    have h0 : a idx = b idx := by simpa using h 0 (Nat.succ_pos r)
    have hrest : ∀ j, j < r → a (idx + 1 + j) = b (idx + 1 + j) := by
      intro j hj
      have := h (j + 1) (by omega)
      simpa [Nat.add_assoc, Nat.add_comm 1 j] using this
    unfold generation_attempts
    rw [← h0]
    cases ha : a idx with
    | error e => simp only []; split <;> [rfl; exact ih (idx + 1) hrest]
    | ok result =>
      simp only []
      split
      · split
        · rfl
        · split
          · rfl
          · exact ih (idx + 1) hrest
      · exact ih (idx + 1) hrest

/-- **C4.** Content synthesis makes at most 3 generation attempts (the result
depends only on the first three attempt outcomes); content failing
structural validation twice and extracting successfully on the 3rd attempt
is returned regardless of its word count (in particular when the count is
outside [500, 2000]); and a backend error raised on the 3rd attempt
propagates to the caller. -/
theorem generate_report_content_retry_spec :
    (∀ (a b : Nat → Except Unit ReportContent),
      (∀ i, i < 3 → a i = b i) →
      generate_report_content a = generate_report_content b)
    ∧ (∀ (attempts : Nat → Except Unit ReportContent) (r0 r1 r : ReportContent),
      attempts 0 = .ok r0 → validate_report_format r0 = false →
      attempts 1 = .ok r1 → validate_report_format r1 = false →
      attempts 2 = .ok r → validate_report_format r = true →
      generate_report_content attempts = .ok r)
    ∧ (∀ attempts : Nat → Except Unit ReportContent,
      attempt_fails (attempts 0) → attempt_fails (attempts 1) →
      attempts 2 = .error () →
      generate_report_content attempts = .error ()) := by
  refine ⟨?_, ?_, ?_⟩
  · intro a b h
    exact generation_attempts_congr a b 3 0 (fun j hj => by simpa using h j hj)
  · intro attempts r0 r1 r h0 hf0 h1 hf1 h2 hf
    unfold generate_report_content
    rw [generation_attempts_ok attempts 0 2 r0 h0, if_neg (by simp [hf0]),
      generation_attempts_ok attempts 1 1 r1 h1, if_neg (by simp [hf1]),
      generation_attempts_ok attempts 2 0 r h2, if_pos hf]
    by_cases hw : (validate_word_count r.content 500 2000).1
    · simp [hw]
    · simp [hw]
  · intro attempts hf0 hf1 h2
    have step : ∀ (idx r : Nat), attempt_fails (attempts idx) → 0 < r →
        generation_attempts attempts idx (r + 1)
          = generation_attempts attempts (idx + 1) r := by
      intro idx r hfa hr
      cases ha : attempts idx with
      | error e =>
        rw [generation_attempts_error attempts idx r e ha,
          if_neg (Nat.ne_of_gt hr)]
      | ok res =>
        rw [ha] at hfa
        simp only [attempt_fails] at hfa
        rw [generation_attempts_ok attempts idx r res ha]
        rcases hfa with hbad | ⟨hok, hwc⟩
        · rw [if_neg (by simp [hbad])]
        · rw [if_pos hok, if_neg (by simp [hwc]), if_neg (Nat.ne_of_gt hr)]
    unfold generate_report_content
    rw [step 0 2 hf0 (by omega), step 1 1 hf1 (by omega),
      generation_attempts_error attempts 2 0 () h2, if_pos rfl]

/-- Witness for C4: a concrete attempt sequence failing structural
validation twice, whose 3rd extraction succeeds with a 1-word content (far
outside [500, 2000]) and is returned anyway. -/
theorem generate_report_content_retry_spec_witness :
    generate_report_content
      (fun i => if i = 2 then .ok ⟨['t'], ['h', 'i']⟩ else .ok ⟨[], ['x']⟩)
      = .ok ⟨['t'], ['h', 'i']⟩ :=
  generate_report_content_retry_spec.2.1
    (fun i => if i = 2 then .ok ⟨['t'], ['h', 'i']⟩ else .ok ⟨[], ['x']⟩)
    ⟨[], ['x']⟩ ⟨[], ['x']⟩ ⟨['t'], ['h', 'i']⟩
    rfl (by decide) rfl (by decide) rfl (by decide)

/-! ## News-filter response parsing (`NewsFilterAnalyzer._parse_news_filtering`)

The response is a character list; the candidate list holds the step-1
article ids (the `_id` strings of the simplified news projection).  Since
those ids are strings, the id-mapping of the source maps each id to itself;
the `$oid` and `id`-key branches only apply to non-string ids, which the
simplified projection never produces.  The `json.loads` library call is an
external collaborator passed as an oracle. -/

/-- Python `str.split(sep)` for a single-character separator (empty parts
kept). -/
def split_on_char (sep : Char) : List Char → List (List Char)
  | [] => [[]]
  | c :: cs =>
    let r := split_on_char sep cs
    if c = sep then [] :: r
    else
      match r with
      | [] => [[c]]
      | w :: ws => (c :: w) :: ws

/-- Python `str.strip(chars)`: drop characters in `cs` from both ends. -/
def strip_chars (cs : List Char) (l : List Char) : List Char :=
  ((l.dropWhile (· ∈ cs)).reverse.dropWhile (· ∈ cs)).reverse

/-- Python `s.split(' ')[0]`. -/
def first_space_token (l : List Char) : List Char :=
  l.takeWhile (fun c => c ≠ ' ')

/-- First occurrence of `pat` in a list: returns the text before and after
it (`none` when absent).  Models both `pat in line` and
`line.split(pat, 1)`. -/
def find_sub (pat : List Char) : List Char → Option (List Char × List Char)
  | [] => if pat.isEmpty then some ([], []) else none
  | c :: cs =>
    if pat.isPrefixOf (c :: cs) then some ([], (c :: cs).drop pat.length)
    else
      match find_sub pat cs with
      | some (pre, post) => some (c :: pre, post)
      | none => none

/-- Strategy (a): scan each line for `Article ID:`, take the text after it,
apply `.strip().strip(',').strip(':').strip(chr(34)).strip(chr(39))` and the
split at the first space, and keep the id when it is a known candidate. -/
def strategy_article_id_lines (lines : List (List Char))
    (candidates : List (List Char)) : List (List Char) :=
  lines.foldr
    (fun line acc =>
      match find_sub ("Article ID:".toList) (strip line) with
      | none => acc
      | some (_, rest) =>
        let aid := first_space_token
          (strip_chars [Char.ofNat 39]
            (strip_chars [Char.ofNat 34]
              (strip_chars [':'] (strip_chars [','] (strip rest)))))
        if aid ∈ candidates then aid :: acc else acc)
    []

/-- Minimal JSON value model for the embedded-JSON strategy. -/
inductive Json
  | str (s : List Char)
  | obj (fields : List (List Char × Json))
  | arr (items : List Json)
  | other

/-- Python dict lookup (keys unique, first match). -/
def json_lookup (fields : List (List Char × Json)) (key : List Char) :
    Option Json :=
  (fields.find? (fun f => f.1 == key)).map (fun f => f.2)

/-- The key names tried, in order, on the embedded JSON object. -/
def possible_keys : List (List Char) :=
  ["selected_articles", "filtered_news", "relevant_articles", "articles",
    "ids"].map String.toList

/-- One array item: a string is an id; a dict with an `_id` key yields
`str(item[chr(95) ++ "id"])`, modelled for string-valued ids (a non-string
`_id` would stringify to a value that is never a candidate id); anything
else is skipped. -/
def json_item_id : Json → Option (List Char)
  | .str s => some s
  | .obj fields =>
    match json_lookup fields ("_id".toList) with
    | some (.str s) => some s
    | _ => none
  | _ => none

/-- The substring between the first `0x7b` brace and the last `0x7d` brace
(inclusive), when the latter comes after the former. -/
def find_brace_span (l : List Char) : Option (List Char) :=
  match l.indexOf? (Char.ofNat 0x7b), l.reverse.indexOf? (Char.ofNat 0x7d) with
  | some i, some rj =>
    let j := l.length - 1 - rj
    if i < j then some ((l.drop i).take (j - i + 1)) else none
  | _, _ => none

/-- Strategy (b): parse the brace-delimited span as JSON and collect, over
every known key holding a list, the candidate ids among its items (a parse
failure or a non-object value contributes nothing, as the source catches
those exceptions). -/
def strategy_json (jsonLoads : List Char → Option Json) (response : List Char)
    (candidates : List (List Char)) : List (List Char) :=
  match find_brace_span response with
  | none => []
  | some jsonStr =>
    match jsonLoads jsonStr with
    | none => []
    | some (.obj fields) =>
      possible_keys.flatMap
        (fun key =>
          match json_lookup fields key with
          | some (.arr items) =>
            items.filterMap
              (fun it =>
                match json_item_id it with
                | some aid => if aid ∈ candidates then some aid else none
                | none => none)
          | _ => [])
    | some _ => []

/-- `re.findall` for `ID:` followed by optional whitespace and one or more
digits, scanning left to right and resuming after each match; the fuel is
the list length, which bounds the number of scan steps since every step
consumes at least one character. -/
def scan_id_colon_fuel : Nat → List Char → List (List Char)
  | 0, _ => []
  | _, [] => []
  | fuel + 1, c :: cs =>
    if ("ID:".toList).isPrefixOf (c :: cs) then
      let afterWs := ((c :: cs).drop 3).dropWhile is_space
      let digits := afterWs.takeWhile Char.isDigit
      if digits.isEmpty then scan_id_colon_fuel fuel cs
      else digits :: scan_id_colon_fuel fuel (afterWs.drop digits.length)
    else scan_id_colon_fuel fuel cs

def scan_id_colon (l : List Char) : List (List Char) :=
  scan_id_colon_fuel l.length l

/-- `re.findall` for a hash mark followed by one or more digits. -/
def scan_hash_fuel : Nat → List Char → List (List Char)
  | 0, _ => []
  | _, [] => []
  | fuel + 1, c :: cs =>
    if c = '#' then
      let digits := cs.takeWhile Char.isDigit
      if digits.isEmpty then scan_hash_fuel fuel cs
      else digits :: scan_hash_fuel fuel (cs.drop digits.length)
    else scan_hash_fuel fuel cs

def scan_hash (l : List Char) : List (List Char) :=
  scan_hash_fuel l.length l

/-- The line-anchored numbered-list pattern: leading digits followed by a
period, comma or closing parenthesis (at most one match per line). -/
def leading_number_match (l : List Char) : List (List Char) :=
  let digits := l.takeWhile Char.isDigit
  if digits.isEmpty then []
  else
    match l.drop digits.length with
    | c :: _ =>
      if c = '.' ∨ c = ',' ∨ c = Char.ofNat 41 then [digits] else []
    | [] => []

/-- Strategy (c): per (unstripped) line, apply the three numeric patterns in
order; each match is stripped and kept when it is a candidate id. -/
def strategy_numeric (lines : List (List Char))
    (candidates : List (List Char)) : List (List Char) :=
  lines.flatMap
    (fun line =>
      ((scan_id_colon line ++ scan_hash line ++ leading_number_match line).map
          strip).filter (fun m => m ∈ candidates))

/-- `NewsFilterAnalyzer._parse_news_filtering`: the three strategies in
order, each tried only when the previous ones produced nothing, with the
full candidate list as the final fallback.  (The function body's own
`except` handler also returns the full candidate list, so no path raises.) -/
def parse_news_filtering (jsonLoads : List Char → Option Json)
    (response : List Char) (candidates : List (List Char)) :
    List (List Char) :=
  let lines := split_on_char (Char.ofNat 10) response
  let s1 := strategy_article_id_lines lines candidates
  if s1.isEmpty then
    let s2 := strategy_json jsonLoads response candidates
    if s2.isEmpty then
      let s3 := strategy_numeric lines candidates
      if s3.isEmpty then candidates else s3
    else s2
  else s1

/-- **C5.** For every non-empty step-1 candidate list and every backend
response on which none of the three parsing strategies resolves any
candidate id, the cascade returns exactly the full step-1 candidate id list
— never an empty or smaller set. -/
theorem parse_news_filtering_fallback (jsonLoads : List Char → Option Json)
    (response : List Char) (candidates : List (List Char))
    (hne : candidates ≠ [])
    (h1 : strategy_article_id_lines (split_on_char (Char.ofNat 10) response)
        candidates = [])
    (h2 : strategy_json jsonLoads response candidates = [])
    (h3 : strategy_numeric (split_on_char (Char.ofNat 10) response)
        candidates = []) :
    parse_news_filtering jsonLoads response candidates = candidates
    ∧ parse_news_filtering jsonLoads response candidates ≠ [] := by
  have hmain : parse_news_filtering jsonLoads response candidates = candidates := by
    unfold parse_news_filtering
    simp [h1, h2, h3]
  exact ⟨hmain, by rw [hmain]; exact hne⟩

/-- Witness for C5: a concrete marker-free response with two candidate ids
is returned unchanged by the cascade. -/
theorem parse_news_filtering_fallback_witness :
    parse_news_filtering (fun _ => none) ("no related articles found".toList)
      ["12".toList, "34".toList]
      = ["12".toList, "34".toList] :=
  (parse_news_filtering_fallback (fun _ => none)
    ("no related articles found".toList) ["12".toList, "34".toList]
    (by decide) (by decide) rfl (by decide)).1

/-! ## Topic-relevance filtering (`NewsFilterAnalyzer.filter_related_news`) -/

/-- `NewsFilterAnalyzer.filter_related_news`.  Step 1 keeps the news whose
id is in the topic's `article_ids`; an empty intersection returns `[]` with
no backend call.  `chat` is the oracle for the backend refinement call:
`.error` models an exception raised anywhere in steps 2–3 up to and
including the chat call (prompt construction or the call itself — the
parsing step below is total), on which the handler returns the first 10
step-1 articles.  On `.ok` the response is parsed against the step-1 ids and
the ids mapped back through `{str(news.id): news}` (last occurrence wins for
a duplicated id). -/
def filter_related_news (jsonLoads : List Char → Option Json)
    (chat : Except Unit (List Char)) (topic : Topic)
    (news_list : List NewsArt) : List NewsArt :=
  let topic_related_news := news_list.filter (fun n => n.id ∈ topic.article_ids)
  if topic_related_news.isEmpty then []
  else
    match chat with
    | .error _ => topic_related_news.take 10
    | .ok response =>
      let candidates := topic_related_news.map (fun n => n.id)
      let filtered_ids := parse_news_filtering jsonLoads response candidates
      filtered_ids.filterMap
        (fun aid => topic_related_news.reverse.find? (fun n => n.id == aid))

/-- Eleven step-1 articles whose news-list order coincides with increasing
recency: the most recently published article is last. -/
def c8_news : List NewsArt :=
  (List.range 11).map
    (fun i =>
      { id := [Char.ofNat (48 + i)], title := [], url := [], source := [],
        published_at := i })

def c8_topic : Topic :=
  { topic_id := 0, content := [], count := 0, weighted_count := 0,
    keywords := [], article_ids := (List.range 11).map (fun i => [Char.ofNat (48 + i)]) }

/-- **C8 counterexample.** The claim says the exception fallback returns the
10 most relevant step-1 articles ordered by relevance or else recency.  With
11 step-1 articles whose list order is oldest-first, the code returns the
*first* 10 in list order: the unique most recent article (timestamp 10) is
excluded while the oldest (timestamp 0) is included, so the result is not
the 10 most recent under any ordering. -/
theorem filter_fallback_not_most_recent :
    ((filter_related_news (fun _ => none) (.error ()) c8_topic c8_news).map
        (fun n => n.published_at) = [0, 1, 2, 3, 4, 5, 6, 7, 8, 9])
    ∧ ((c8_news.filter (fun n => n.id ∈ c8_topic.article_ids)).map
        (fun n => n.published_at) = [0, 1, 2, 3, 4, 5, 6, 7, 8, 9, 10])
    ∧ (10 ∉ (filter_related_news (fun _ => none) (.error ()) c8_topic c8_news).map
        (fun n => n.published_at)) := by
  refine ⟨by decide, by decide, by decide⟩

/-- **C8 (amended).** On an exception in the refinement or parsing steps
after a non-empty step-1 intersection, `filter_related_news` returns the
first 10 step-1 articles in their original news-list order, with no
relevance or recency reordering. -/
theorem filter_related_news_exception_fallback
    (jsonLoads : List Char → Option Json) (topic : Topic)
    (news_list : List NewsArt)
    (h : (news_list.filter (fun n => n.id ∈ topic.article_ids)).isEmpty = false) :
    filter_related_news jsonLoads (.error ()) topic news_list
      = (news_list.filter (fun n => n.id ∈ topic.article_ids)).take 10 := by
  unfold filter_related_news
  simp [h]

/-- Witness for C8 (amended): the concrete 11-article instance. -/
theorem filter_related_news_exception_fallback_witness :
    filter_related_news (fun _ => none) (.error ()) c8_topic c8_news
      = (c8_news.filter (fun n => n.id ∈ c8_topic.article_ids)).take 10 :=
  filter_related_news_exception_fallback (fun _ => none) c8_topic c8_news
    (by decide)

/-! ## Per-topic orchestration (`BaseReportGenerator.process_topic` /
`execute`)

Each awaited call inside `process_topic` is an oracle; `.error` models a
raised exception.  The embedding additionally returns the refined topic (the
in-place mutation of the `Topic` object) and an ordered trace of pipeline
events, so that the state-machine claims can be read off the trace. -/

inductive Ev
  | filterEv
  | skipEmpty
  | genEv (call : Nat)
  | validateEv
  | assembleEv
  | caught
deriving DecidableEq

/-- `models.report.Report` as assembled by `ReportFormatter.compile_report`
and `Report.from_dict` (reference news reduced to title/url/source; the
timestamp kept as the formatted string, datetime parsing being external). -/
structure Report where
  topic_id : Nat
  topic_content : List Char
  title : List Char
  content : List Char
  published_at : List Char
  reference_news : List (List Char × List Char × List Char)
deriving DecidableEq

def nat_chars (n : Nat) : List Char := (Nat.repr n).toList

/-- `getattr(topic, chr(116) ++ "itle", f"Topic {topic_id}")`: the `Topic`
dataclass has no `title` attribute, so the default always applies. -/
def placeholder_title (tid : Nat) : List Char :=
  "Topic ".toList ++ nat_chars tid

/-- The fallback content substituted when the first generation returns no
usable content (`process_topic` lines 160–164). -/
def placeholder_content (tid : Nat) (topic_content : List Char) : List Char :=
  "This is a placeholder report for topic ".toList ++ nat_chars tid ++
    ". The original content generation failed. This topic is about ".toList ++
    topic_content ++ ".".toList

/-- The fallback content substituted inside the retry loop
(`process_topic` lines 186–190). -/
def placeholder_retry_content (tid : Nat) (topic_content : List Char) : List Char :=
  "This is a placeholder report for topic ".toList ++ nat_chars tid ++
    " after failed retry. This topic is about ".toList ++
    topic_content ++ ".".toList

/-- One numbered reference line of `append_reference_news`. -/
def reference_news_entry (i : Nat) (n : NewsArt) : List Char :=
  nat_chars i ++ ". [".toList ++ n.title ++ "](".toList ++ n.url ++ ")\n".toList

def reference_entries : Nat → List NewsArt → List Char
  | _, [] => []
  | i, n :: ns => reference_news_entry i n ++ reference_entries (i + 1) ns

/-- `ReportFormatter.append_reference_news` (`enumerate(filtered_news, 1)`). -/
def append_reference_news (ref_title content : List Char)
    (filtered : List NewsArt) : List Char :=
  content ++ "\n\n### ".toList ++ ref_title ++ "\n\n".toList ++
    reference_entries 1 filtered

/-- `ReportFormatter.compile_report` followed by `Report.from_dict`:
the topic fields are read from the (already refined) topic, and the body is
the generated content with the reference-article section appended. -/
def compile_report (ref_title now : List Char) (t : Topic)
    (rc : ReportContent) (filtered : List NewsArt) : Report :=
  { topic_id := t.topic_id
    topic_content := t.content
    title := rc.title
    content := append_reference_news ref_title rc.content filtered
    published_at := now
    reference_news := filtered.map (fun n => (n.title, n.url, n.source)) }

/-- The per-topic effect oracle: `filter_result` is the outcome of the
awaited `news_filter.filter_related_news`; `gen i` the outcome of the
`i`-th call to `generate_report_content` (`.ok none` a Python-falsy return,
`.error` a raised exception); `validate rc` the outcome of
`validator.validate_content` on a given title/content (verdict and word
count); `ws` the region's weighted-sources table; `ref_title` the
formatter's reference-section title and `now` the formatted current
timestamp. -/
structure TopicOracle where
  filter_result : Except Unit (List NewsArt)
  gen : Nat → Except Unit (Option ReportContent)
  validate : ReportContent → Except Unit (Bool × Nat)
  ws : List Char → Option ℚ
  ref_title : List Char
  now : List Char

/-- The `while not content_valid and retry_count < 3` loop of
`process_topic`: `call` is the index of the next generation call and `r` the
remaining loop iterations (3 at entry).  The body regenerates content but
never recomputes `content_valid`, which the embedding mirrors by keeping the
flag unchanged; a falsy regeneration result is replaced by the retry
placeholder, a non-falsy one is kept as is.  The returned trace records the
generation calls made. -/
def regen_loop (o : TopicOracle) (tid : Nat) (tcontent : List Char)
    (content_valid : Bool) :
    ReportContent → Nat → Nat → Except Unit ReportContent × List Ev
  | rc, _, 0 => (.ok rc, [])
  | rc, call, r + 1 =>
    if content_valid then (.ok rc, [])
    else
      match o.gen call with
      | .error e => (.error e, [Ev.genEv call])
      | .ok orc =>
        let rc2 :=
          match orc with
          | none =>
            { title := placeholder_title tid
              content := placeholder_retry_content tid tcontent }
          | some rcx => rcx
        let next := regen_loop o tid tcontent content_valid rc2 (call + 1) r
        (next.1, Ev.genEv call :: next.2)

/-- `BaseReportGenerator.process_topic`: filter; Skip on empty; refine the
topic counts; generate (with the placeholder substituted when the first
generation returns no usable content); validate once; run the retry loop;
assemble.  Any raised exception is caught by the surrounding `try` and the
topic yields no report. -/
def process_topic (o : TopicOracle) (t : Topic) :
    Option Report × Topic × List Ev :=
  match o.filter_result with
  | .error _ => (none, t, [Ev.filterEv, Ev.caught])
  | .ok filtered =>
    if filtered.isEmpty then (none, t, [Ev.filterEv, Ev.skipEmpty])
    else
      let t2 := refine_topic o.ws t filtered
      match o.gen 0 with
      | .error _ => (none, t2, [Ev.filterEv, Ev.genEv 0, Ev.caught])
      | .ok orc =>
        let rc1 :=
          match orc with
          | none =>
            { title := placeholder_title t.topic_id
              content := placeholder_content t.topic_id t.content }
          | some rcx =>
            if rcx.content.isEmpty then
              { title := placeholder_title t.topic_id
                content := placeholder_content t.topic_id t.content }
            else rcx
        match o.validate rc1 with
        | .error _ =>
          (none, t2, [Ev.filterEv, Ev.genEv 0, Ev.validateEv, Ev.caught])
        | .ok (valid, _) =>
          let loop := regen_loop o t.topic_id t.content valid rc1 1 3
          match loop.1 with
          | .error _ =>
            (none, t2,
              [Ev.filterEv, Ev.genEv 0, Ev.validateEv] ++ loop.2 ++ [Ev.caught])
          | .ok rcf =>
            (some (compile_report o.ref_title o.now t2 rcf filtered), t2,
              [Ev.filterEv, Ev.genEv 0, Ev.validateEv] ++ loop.2 ++ [Ev.assembleEv])

/-- Steps 4–5 of `execute`: `asyncio.gather` with `return_exceptions=True`
returns one outcome per task in task order; exceptions are logged and
skipped, `None` results skipped, reports kept in order. -/
def collect_reports (results : List (Except Unit (Option Report))) :
    List Report :=
  results.foldr
    (fun r acc =>
      match r with
      | .ok (some rep) => rep :: acc
      | _ => acc)
    []

/-- **C1.** Per-topic failure isolation: a topic whose filtered article set
is empty is Skipped (no report); a failed task contributes nothing and
removes nothing from its siblings, wherever it sits in the batch; and the
batch result is exactly the reports of the topics that succeeded, in task
order. -/
theorem batch_failure_isolation :
    (∀ (o : TopicOracle) (t : Topic), o.filter_result = .ok [] →
      (process_topic o t).1 = none)
    ∧ (∀ (pre post : List (Except Unit (Option Report))) (e : Unit),
      collect_reports (pre ++ .error e :: post)
        = collect_reports pre ++ collect_reports post)
    ∧ (∀ results, collect_reports results
        = results.filterMap
            (fun r => match r with | .ok res => res | .error _ => none)) := by
  refine ⟨?_, ?_, ?_⟩
  · intro o t h
    unfold process_topic
    rw [h]
    rfl
  · intro pre post e
    induction pre with
    | nil => rfl
    | cons r pre ih =>
      cases r with
      | error e2 => simpa [collect_reports] using ih
      | ok res =>
        cases res with
        | none => simpa [collect_reports] using ih
        | some rep => simp [collect_reports] at ih ⊢; exact ih
  · intro results
    induction results with
    | nil => rfl
    | cons r results ih =>
      cases r with
      | error e => simpa [collect_reports] using ih
      | ok res =>
        cases res with
        | none => simpa [collect_reports] using ih
        | some rep => simp [collect_reports] at ih ⊢; exact ih

/-- Witness for C1: a concrete empty-filter oracle yields no report. -/
theorem batch_failure_isolation_witness :
    (process_topic
      { filter_result := .ok []
        gen := fun _ => .error ()
        validate := fun _ => .error ()
        ws := fun _ => none
        ref_title := []
        now := [] }
      c8_topic).1 = none :=
  batch_failure_isolation.1 _ c8_topic rfl

/-- A single filtered supporting article for the orchestration scenarios. -/
def sample_art : NewsArt :=
  { id := ['a'], title := ['n'], url := [], source := [], published_at := 0 }

/-- A selected topic for the orchestration scenarios. -/
def sample_topic : Topic :=
  { topic_id := 7, content := ['z'], count := 0, weighted_count := 0,
    keywords := [], article_ids := [['a']] }

def c6_bad : ReportContent := { title := ['t'], content := "short".toList }

def c6_good : ReportContent := { title := ['t'], content := "good content".toList }

/-- Oracle for the C6 scenario: the first generation yields content the
validator rejects, every regeneration yields content the validator would
accept. -/
def c6_oracle : TopicOracle :=
  { filter_result := .ok [sample_art]
    gen := fun i => if i = 0 then .ok (some c6_bad) else .ok (some c6_good)
    validate := fun rc => .ok (rc.content == "good content".toList, 0)
    ws := fun _ => none
    ref_title := []
    now := [] }

/-- **C6 divergence witness.** With initial content failing validation and
every regenerated content acceptable to the validator, `process_topic`
validates exactly once: the trace shows three regenerations with no further
`validateEv` before `assembleEv`, and the topic is assembled with the last
regenerated content without it ever being validated.  The loop condition
`not content_valid` can never become false because the loop body does not
revalidate, contradicting the spec's `Validate` transition after each
`Synthesize`. -/
theorem regenerated_content_never_revalidated :
    ((process_topic c6_oracle sample_topic).2.2
      = [Ev.filterEv, Ev.genEv 0, Ev.validateEv, Ev.genEv 1, Ev.genEv 2,
          Ev.genEv 3, Ev.assembleEv])
    ∧ ((process_topic c6_oracle sample_topic).2.2.count Ev.validateEv = 1)
    ∧ (c6_oracle.validate c6_good = .ok (true, 0))
    ∧ ((process_topic c6_oracle sample_topic).1.map (fun r => r.title)
        = some c6_good.title)
    ∧ ((process_topic c6_oracle sample_topic).1.map (fun r => r.content)
        = some (append_reference_news [] c6_good.content [sample_art])) :=
  ⟨by decide, by decide, rfl, by decide, by decide⟩

/-- Oracle for the C7 counterexample: filtering succeeds with one article,
synthesis raises. -/
def c7_error_oracle : TopicOracle :=
  { filter_result := .ok [sample_art]
    gen := fun _ => .error ()
    validate := fun _ => .error ()
    ws := fun _ => none
    ref_title := []
    now := [] }

/-- **C7 counterexample.** A topic whose filtered article set is non-empty
is nevertheless Skipped when synthesis raises (for instance a backend error
propagating from the final generation attempt): the exception is caught at
the topic level and no report is produced, refuting the claim that no topic
surviving filtering ends in the Skipped state. -/
theorem surviving_topic_skipped_on_synthesis_error :
    c7_error_oracle.filter_result = .ok [sample_art]
    ∧ ([sample_art] : List NewsArt).isEmpty = false
    ∧ (process_topic c7_error_oracle sample_topic).1 = none
    ∧ (process_topic c7_error_oracle sample_topic).2.2
        = [Ev.filterEv, Ev.genEv 0, Ev.caught] :=
  ⟨rfl, by decide, by decide, by decide⟩

/-- **C7 (amended).** When synthesis *returns* no usable content (a falsy
result; an empty content string is likewise replaced), the orchestrator
substitutes the deterministic placeholder title and body referencing the
topic's label and still produces a report; but a synthesis call that
*raises* is caught and the topic is Skipped — surviving filtering guarantees
a report only when no synthesis exception escapes. -/
theorem empty_synthesis_yields_placeholder_report (o : TopicOracle)
    (t : Topic) (filtered : List NewsArt) (wc : Nat)
    (hf : o.filter_result = .ok filtered)
    (hne : filtered.isEmpty = false)
    (hgen : o.gen 0 = .ok none)
    (hval : o.validate
        { title := placeholder_title t.topic_id
          content := placeholder_content t.topic_id t.content } = .ok (true, wc)) :
    (process_topic o t).1
      = some (compile_report o.ref_title o.now (refine_topic o.ws t filtered)
          { title := placeholder_title t.topic_id
            content := placeholder_content t.topic_id t.content } filtered)
    ∧ (∀ o2 : TopicOracle, o2.filter_result = .ok filtered →
        o2.gen 0 = .error () → (process_topic o2 t).1 = none) := by
  constructor
  · unfold process_topic
    rw [hf]
    simp only [hne, Bool.false_eq_true, if_false]
    rw [hgen]
    simp only []
    rw [hval]
    simp [regen_loop]
  · intro o2 hf2 hgen2
    unfold process_topic
    rw [hf2]
    simp only [hne, Bool.false_eq_true, if_false]
    rw [hgen2]

/-- Oracle for the C7 placeholder path: synthesis returns a falsy result,
validation accepts the placeholder. -/
def c7_placeholder_oracle : TopicOracle :=
  { filter_result := .ok [sample_art]
    gen := fun _ => .ok none
    validate := fun _ => .ok (true, 0)
    ws := fun _ => none
    ref_title := []
    now := [] }

/-- Witness for C7 (amended): the concrete placeholder run produces a report
carrying the placeholder title and body, and the same topic with a raising
synthesis yields none. -/
theorem empty_synthesis_yields_placeholder_report_witness :
    (process_topic c7_placeholder_oracle sample_topic).1
      = some (compile_report [] []
          (refine_topic (fun _ => none) sample_topic [sample_art])
          { title := placeholder_title 7
            content := placeholder_content 7 ['z'] } [sample_art])
    ∧ (process_topic c7_error_oracle sample_topic).1 = none :=
  ⟨(empty_synthesis_yields_placeholder_report c7_placeholder_oracle
      sample_topic [sample_art] 0 rfl (by decide) rfl rfl).1,
    (empty_synthesis_yields_placeholder_report c7_placeholder_oracle
      sample_topic [sample_art] 0 rfl (by decide) rfl rfl).2
      c7_error_oracle rfl rfl⟩

end NewsColumn
